import Mathlib

/-!
Verification of the xgen C# backend (src/genCSharp.go, src/utils.go).

The Go code is shallowly embedded: pure helpers become Lean functions, the
mutable `CodeGenerator` / package-global state (`fieldNameCount`,
`gen.StructAST`, `gen.Field`) becomes an explicit `GenState` record threaded
through the handlers, and the final destination I/O of `GenCSharp` is
parameterised by an `IoOutcome` describing whether `os.Create` / `f.Write`
succeed.

Modelling conventions, noted where they matter:
* Go strings are Lean `String`s.  Go's `<` on strings is byte-wise
  lexicographic; UTF-8 byte order coincides with code-point order, so it is
  modelled by `charListLess` on the underlying character lists.
* Go maps with string keys are modelled as association lists
  (`List (String × String)`, for `gen.StructAST` and `v.MemberTypes`) or as
  total functions with default 0 (`String → Nat`, for `fieldNameCount`);
  map iteration order is nondeterministic in Go, which is why `MemberTypes`
  order-independence is proved rather than assumed.
* `strings.Split` with the single-character separators ":" and "." is
  `splitOnChar`; `strings.Replace(s, "-", "", -1)` is `removeDashes`;
  `strings.HasSuffix(s, "?")` is `hasSuffixQmark` — all written on character
  lists so that concrete instances evaluate inside the kernel.
* `unicode.ToUpper` on the first rune (`ToTitle`) is modelled by
  `Char.toUpper`, which agrees with it on ASCII.
* `sort.Sort(kvPairList)` is modelled by `List.insertionSort` with the
  complement of the Go `Less`; the comparator is proved total, transitive and
  antisymmetric below, so the sorted permutation is unique and any correct
  sorting algorithm (Go's unstable introsort included) produces the same list.
-/

namespace Xgen

/-- Go `strings.Split(s, sep)` for a single-character separator: auxiliary
walk accumulating the current segment in reverse. -/
def splitOnCharAux (sep : Char) : List Char → List Char → List String
  | [], acc => [String.mk acc.reverse]
  | c :: cs, acc =>
    if c = sep then String.mk acc.reverse :: splitOnCharAux sep cs []
    else splitOnCharAux sep cs (c :: acc)

/-- Go `strings.Split(s, sep)` for a single-character separator `sep`
(always returns at least one segment; `Split("", sep) = [""]` as in Go). -/
def splitOnChar (s : String) (sep : Char) : List String :=
  splitOnCharAux sep s.data []

/-- Go `strings.Replace(s, "-", "", -1)`: removing every occurrence of the
one-character pattern "-" is exactly filtering the dashes out. -/
def removeDashes (s : String) : String :=
  String.mk (s.data.filter (fun c => c != '-'))

/-- Go `strings.HasSuffix(s, "?")`: the last character is '?'. -/
def hasSuffixQmark (s : String) : Bool :=
  match s.data.getLast? with
  | some c => c = '?'
  | none => false

/-- Byte-wise lexicographic order of Go strings, on character lists
(UTF-8 byte order coincides with code-point order). -/
def charListLess : List Char → List Char → Bool
  | [], [] => false
  | [], _ :: _ => true
  | _ :: _, [] => false
  | a :: as, b :: bs => if a < b then true else if b < a then false else charListLess as bs

/-- utils.go `ToTitle`: upper-case the first rune, keep the rest. -/
def ToTitle (val : String) : String :=
  match val.data with
  | [] => ""
  | c :: cs => String.mk (Char.toUpper c :: cs)

/-- utils.go `MakeFirstUpperCase`. -/
def MakeFirstUpperCase (s : String) : String := ToTitle s

/-- utils.go: the generated-file banner `copyright`. -/
def copyright : String := "// Code generated by xgen. DO NOT EDIT."

/-- genCSharp.go `v *Attribute` (fields the C# backend reads).  The Go field
`Type` is spelled `Type'` because `Type` is reserved in Lean. -/
structure Attribute where
  Name : String
  Doc : String
  Type' : String
  Plural : Bool
  Optional : Bool


/-- genCSharp.go `v *Element` (fields the C# backend reads). -/
structure Element where
  Name : String
  Doc : String
  Type' : String
  Plural : Bool
  Optional : Bool


/-- genCSharp.go `v *Group`: recursive (a group holds nested groups), hence an
inductive with positional constructor fields and explicit projections. -/
inductive Group where
  | mk : String → String → String → Bool → List Element → List Group → Group


/-- Projection `Group.Name`. -/
def Group.Name : Group → String
  | .mk n _ _ _ _ _ => n

/-- Projection `Group.Doc`. -/
def Group.Doc : Group → String
  | .mk _ d _ _ _ _ => d

/-- Projection `Group.Ref`. -/
def Group.Ref : Group → String
  | .mk _ _ r _ _ _ => r

/-- Projection `Group.Plural`. -/
def Group.Plural : Group → Bool
  | .mk _ _ _ p _ _ => p

/-- Projection `Group.Elements`. -/
def Group.Elements : Group → List Element
  | .mk _ _ _ _ es _ => es

/-- Projection `Group.Groups`. -/
def Group.Groups : Group → List Group
  | .mk _ _ _ _ _ gs => gs

/-- genCSharp.go `v *AttributeGroup` (fields the C# backend reads). -/
structure AttributeGroup where
  Name : String
  Doc : String
  Ref : String
  Attributes : List Attribute


/-- genCSharp.go `v *ComplexType` (fields the C# backend reads). -/
structure ComplexType where
  Name : String
  Doc : String
  Base : String
  Attributes : List Attribute
  AttributeGroup : List AttributeGroup
  Elements : List Element
  Groups : List Group


/-- genCSharp.go `v *SimpleType`.  The Go map `MemberTypes map[string]string`
is an association list whose order models the (nondeterministic) map
iteration order. -/
structure SimpleType where
  Name : String
  Doc : String
  Base : String
  Union : Bool
  MemberTypes : List (String × String)
  List : Bool


/-- One entry of `gen.ProtoTree` (`[]interface{}` in Go): one of the six
schema construct variants.  `nil` tree entries are `Option.none` at use
sites. -/
inductive ProtoItem where
  | simpleType : SimpleType → ProtoItem
  | complexType : ComplexType → ProtoItem
  | element : Element → ProtoItem
  | attribute : Attribute → ProtoItem
  | group : Group → ProtoItem
  | attributeGroup : AttributeGroup → ProtoItem


/-- `gen.ProtoTree`: the schema tree, `none` modelling Go `nil` entries. -/
abbrev ProtoTree := List (Option ProtoItem)

/-- utils.go `getBasefromSimpleType`: scan the tree for a non-list non-union
SimpleType (yielding its `Base`), or an Attribute or Element (yielding its
`Type`), whose `Name` equals the reference; first match wins, otherwise the
reference itself is returned. -/
def getBasefromSimpleType (name : String) (XSDSchema : ProtoTree) : String :=
  match XSDSchema with
  | [] => name
  | some (.simpleType v) :: rest =>
    if !v.List && !v.Union && v.Name == name then v.Base
    else getBasefromSimpleType name rest
  | some (.attribute v) :: rest =>
    if v.Name == name then v.Type' else getBasefromSimpleType name rest
  | some (.element v) :: rest =>
    if v.Name == name then v.Type' else getBasefromSimpleType name rest
  | _ :: rest => getBasefromSimpleType name rest

/-- utils.go `trimNSPrefix`: if splitting on ":" yields exactly two parts,
return the second, else the input unchanged. -/
def trimNSpfx (str : String) : String :=
  match splitOnChar str ':' with
  | [_, name] => name
  | _ => str

/-- utils.go `genFieldComment`'s `strings.NewReplacer("\n", "\n"+prefix+" ",
"\t", "")` applied to `doc`: both patterns are single characters, so the
replacer is a character-wise map (replacement text is never re-scanned). -/
def docReplacer (pre doc : String) : String :=
  String.join (doc.data.map (fun c =>
    if c = '\n' then "\n" ++ pre ++ " "
    else if c = '\t' then ""
    else String.singleton c))

/-- utils.go `genFieldComment`. -/
def genFieldComment (name doc pre : String) : String :=
  if doc = "" then "\n" ++ pre ++ " " ++ name ++ " ...\n"
  else "\n" ++ pre ++ " " ++ name ++ " is " ++ docReplacer pre doc ++ "\n"

/-- utils.go `kvPairList.Less`:
`k[i].value < k[j].value || (k[i].value == k[j].value && strings.Compare(k[i].key, k[j].key) > 0)`
(`strings.Compare(x, y) > 0` is `y < x` byte-wise). -/
def kvLess (a b : String × String) : Bool :=
  charListLess a.2.data b.2.data || (a.2 == b.2 && charListLess b.1.data a.1.data)

/-- The non-strict counterpart of `kvLess` used to model `sort.Sort`:
`a` may precede `b` iff `b` is not strictly before `a`. -/
def kvLe (a b : String × String) : Prop := (!kvLess b a) = true

instance : DecidableRel kvLe := fun a b => by unfold kvLe; infer_instance

/-- utils.go `toSortedPairs`: the map's key/value pairs sorted with
`kvPairList.Less` via `sort.Sort`.  `kvLe` is a decidable linear order
(proved below), so the sorted permutation is unique and Go's unstable sort
is faithfully modelled by insertion sort. -/
def toSortedPairs (toSort : List (String × String)) : List (String × String) :=
  List.insertionSort kvLe toSort

/-- genCSharp.go `csharpBuildInType`: the C# built-in type set (map to `true`). -/
def csharpBuildInType : List String :=
  ["bool", "byte", "byte[]", "DateOnly", "DateTime", "decimal", "double", "float",
   "int", "List<string>", "long", "object", "short", "string", "TimeOnly", "uint",
   "ulong", "ushort"]

/-- genCSharp.go `isBuiltInCSharpType`. -/
def isBuiltInCSharpType (typeName : String) : Bool :=
  csharpBuildInType.contains typeName

/-- genCSharp.go `csharpBuildInDefaultValues`. -/
def csharpBuildInDefaultValues : List (String × String) :=
  [("byte[]", "Array.Empty<byte>()"), ("List<string>", "new()"),
   ("object", "new()"), ("string", "\"\"")]

/-- The normalization part of genCSharp.go `genCSharpFieldName` (lines 75–83):
split on ":", title-case and concatenate; split the result on ".", title-case
and concatenate; strip hyphens. -/
def genCSharpFieldNameBase (name : String) : String :=
  let fieldName := (splitOnChar name ':').foldl (fun acc str => acc ++ MakeFirstUpperCase str) ""
  let tmp := (splitOnChar fieldName '.').foldl (fun acc str => acc ++ MakeFirstUpperCase str) ""
  removeDashes tmp

/-- genCSharp.go `genCSharpFieldName`: normalize, and when `unique` is set bump
the run-scoped counter `fieldNameCount` keyed by the normalized name,
suffixing the occurrence count when it is not 1.  Returns the produced name
together with the updated counter (the Go package-global made explicit). -/
def genCSharpFieldName (name : String) (unique : Bool) (fieldNameCount : String → Nat) :
    String × (String → Nat) :=
  let fieldName := genCSharpFieldNameBase name
  if unique then
    let count := fieldNameCount fieldName + 1
    let fieldNameCount' := fun k => if k = fieldName then count else fieldNameCount k
    if count ≠ 1 then (fieldName ++ toString count, fieldNameCount')
    else (fieldName, fieldNameCount')
  else (fieldName, fieldNameCount)

/-- genCSharp.go `genCSharpFieldType`: a built-in name maps to itself;
otherwise normalize (split on ".", title-case, strip hyphens, title-case),
with "object" for the empty result. -/
def genCSharpFieldType (name : String) : String :=
  if csharpBuildInType.contains name then name
  else
    let fieldType := (splitOnChar name '.').foldl (fun acc str => acc ++ MakeFirstUpperCase str) ""
    let fieldType := MakeFirstUpperCase (removeDashes fieldType)
    if fieldType ≠ "" then fieldType else "object"

/-- genCSharp.go `genCSharpClassAttributes`. -/
def genCSharpClassAttributes (name : String) : String :=
  "\t[GeneratedCode(\"xgen\", null)]\n\t[XmlType(\"" ++ name ++ "\")]\n"

/-- genCSharp.go `genCSharpFieldAttributes`. -/
def genCSharpFieldAttributes (name : String) (isElement : Bool) : String :=
  if isElement then "\t[XmlElement(\"" ++ name ++ "\")]"
  else "\t[XmlAttribute(\"" ++ name ++ "\")]"

/-- genCSharp.go `getCSharpDefaultValue`. -/
def getCSharpDefaultValue (typeName : String) : String :=
  if hasSuffixQmark typeName then ""
  else if isBuiltInCSharpType typeName then
    match csharpBuildInDefaultValues.lookup typeName with
    | some defaultValue => " = " ++ defaultValue ++ ";"
    | none => ""
  else " = new();"

/-- The generator's mutable state: the package-global `fieldNameCount`
(Go `map[string]int`, total function with default 0), `gen.StructAST`
(the Declaration Cache; only ever written when the key is absent, so a
prepended association list has the same lookup behaviour), and the output
buffer `gen.Field`. -/
structure GenState where
  fieldNameCount : String → Nat
  StructAST : List (String × String)
  Field : String

/-- genCSharp.go `CSharpSimpleType`, union branch loop body (lines 124–133):
one nullable field per sorted member; an empty mapped type is resolved by
name lookup after sorting. -/
def csharpUnionMemberField (tree : ProtoTree) (member : String × String) : String :=
  let memberType := if member.2 = "" then getBasefromSimpleType member.1 tree else member.2
  let fieldType := genCSharpFieldType memberType
  "\t\t" ++ genCSharpFieldAttributes member.1 true ++ " public " ++ fieldType ++ "? "
    ++ genCSharpFieldNameBase member.1 ++ " \x7b get; set; \x7d\n"

/-- genCSharp.go `CSharpSimpleType` (lines 110–151), acting on the explicit
state.  Control flow follows the Go exactly: a cached list type falls through
to the union check; a cached union returns; the scalar branch only emits (and
only caches) when the resolved base is not a C# built-in type. -/
def CSharpSimpleType (tree : ProtoTree) (v : SimpleType) (st : GenState) : GenState :=
  if v.List && (st.StructAST.lookup v.Name).isNone then
    let fieldType := genCSharpFieldType (getBasefromSimpleType (trimNSpfx v.Base) tree)
    let content := " : List<" ++ fieldType ++ "> \x7b\x7d;\n"
    let ast := (v.Name, content) :: st.StructAST
    let fc := genCSharpFieldName v.Name true st.fieldNameCount
    { fieldNameCount := fc.2, StructAST := ast,
      Field := st.Field ++ genFieldComment fc.1 v.Doc "\t//" ++ genCSharpClassAttributes v.Name
        ++ "\tpublic partial class " ++ fc.1 ++ content }
  else if v.Union && decide (0 < v.MemberTypes.length) then
    if (st.StructAST.lookup v.Name).isNone then
      let content := "\n\t\x7b\n"
        ++ String.join ((toSortedPairs v.MemberTypes).map (csharpUnionMemberField tree))
        ++ "\t\x7d\n"
      let ast := (v.Name, content) :: st.StructAST
      let fc := genCSharpFieldName v.Name true st.fieldNameCount
      { fieldNameCount := fc.2, StructAST := ast,
        Field := st.Field ++ genFieldComment fc.1 v.Doc "\t//" ++ genCSharpClassAttributes v.Name
          ++ "\tpublic partial class " ++ fc.1 ++ content }
    else st
  else if (st.StructAST.lookup v.Name).isNone then
    let fieldType := genCSharpFieldType (getBasefromSimpleType (trimNSpfx v.Base) tree)
    if !isBuiltInCSharpType fieldType then
      let content := " : " ++ fieldType ++ " \x7b\x7d;\n"
      let ast := (v.Name, content) :: st.StructAST
      let fc := genCSharpFieldName v.Name true st.fieldNameCount
      { fieldNameCount := fc.2, StructAST := ast,
        Field := st.Field ++ genFieldComment fc.1 v.Doc "\t//" ++ genCSharpClassAttributes v.Name
          ++ "\tpublic partial class " ++ fc.1 ++ content }
    else st
  else st

/-- The field-name disambiguation of genCSharp.go `CSharpComplexType`
(attribute-group, group and element loops): a field whose normalized name
equals the class name gets the fixed suffix "Value". -/
def disambiguateFieldName (fieldName className : String) : String :=
  if fieldName == className then fieldName ++ "Value" else fieldName

/-- genCSharp.go `CSharpComplexType`, attribute-group loop body (lines 160–167). -/
def csharpComplexAttrGroupField (tree : ProtoTree) (className : String)
    (attrGroup : AttributeGroup) : String :=
  let fieldType := getBasefromSimpleType (trimNSpfx attrGroup.Ref) tree
  let fieldName := disambiguateFieldName (genCSharpFieldNameBase attrGroup.Name) className
  "\t" ++ genCSharpFieldAttributes attrGroup.Name true ++ " public "
    ++ genCSharpFieldType fieldType ++ "? " ++ fieldName ++ " \x7b get; set; \x7d\n"

/-- The attribute field type of genCSharp.go `CSharpComplexType` /
`CSharpAttributeGroup` (identical in both loops): resolved type, "?"-suffixed
when the attribute is optional. -/
def csharpAttrFieldType (tree : ProtoTree) (attr : Attribute) : String :=
  let fieldType := genCSharpFieldType (getBasefromSimpleType (trimNSpfx attr.Type') tree)
  if attr.Optional then fieldType ++ "?" else fieldType

/-- genCSharp.go `CSharpComplexType`, attribute loop body (lines 169–176):
the field identifier is the normalized attribute name with "Attr" appended;
no comparison with the class name is made. -/
def csharpComplexAttrField (tree : ProtoTree) (attr : Attribute) : String :=
  let fieldType := csharpAttrFieldType tree attr
  "\t" ++ genCSharpFieldAttributes attr.Name false ++ " public " ++ fieldType ++ " "
    ++ genCSharpFieldNameBase attr.Name ++ "Attr \x7b get; set; \x7d"
    ++ getCSharpDefaultValue fieldType ++ "\n"

/-- genCSharp.go `CSharpComplexType`, group loop body (lines 177–187). -/
def csharpComplexGroupField (tree : ProtoTree) (className : String) (group : Group) : String :=
  let fieldType := genCSharpFieldType (getBasefromSimpleType (trimNSpfx group.Ref) tree)
  let fieldType := if group.Plural then "List<" ++ fieldType ++ ">" else fieldType
  let fieldName := disambiguateFieldName (genCSharpFieldNameBase group.Name) className
  "\tpublic " ++ fieldType ++ "? " ++ fieldName ++ " \x7b get; set; \x7d\n"

/-- The element field type of genCSharp.go `CSharpComplexType` (lines 190–196)
and `CSharpGroup` (lines 232–238), identical in both loops: resolved type,
wrapped `List<…>` when plural, then "?"-suffixed when optional. -/
def csharpElementFieldType (tree : ProtoTree) (element : Element) : String :=
  let fieldType := genCSharpFieldType (getBasefromSimpleType (trimNSpfx element.Type') tree)
  let fieldType := if element.Plural then "List<" ++ fieldType ++ ">" else fieldType
  if element.Optional then fieldType ++ "?" else fieldType

/-- genCSharp.go `CSharpComplexType`, element loop body (lines 189–202). -/
def csharpComplexElementField (tree : ProtoTree) (className : String) (element : Element) :
    String :=
  let fieldType := csharpElementFieldType tree element
  let fieldName := disambiguateFieldName (genCSharpFieldNameBase element.Name) className
  "\t" ++ genCSharpFieldAttributes element.Name true ++ " public " ++ fieldType ++ " "
    ++ fieldName ++ " \x7b get; set; \x7d" ++ getCSharpDefaultValue fieldType ++ "\n"

/-- genCSharp.go `CSharpComplexType`, lines 204–207: the text-content field,
appended exactly when the raw `v.Base` string is non-empty and is itself a C#
built-in name. -/
def csharpComplexBaseContent (tree : ProtoTree) (v : ComplexType) : String :=
  if decide (0 < v.Base.length) && isBuiltInCSharpType v.Base then
    let fieldType := genCSharpFieldType (getBasefromSimpleType (trimNSpfx v.Base) tree)
    "\t\t[XmlText(typeof(" ++ fieldType ++ "))] public " ++ fieldType
      ++ "? Value \x7b get; set; \x7d\n"
  else ""

/-- genCSharp.go `CSharpComplexType`, lines 212–216: the inheritance clause,
present exactly when the raw `v.Base` string is non-empty and is not a C#
built-in name; it names the resolved (one level through the tree) and
normalized base type. -/
def csharpComplexInheritance (tree : ProtoTree) (v : ComplexType) : String :=
  if decide (0 < v.Base.length) && !isBuiltInCSharpType v.Base then
    " : " ++ genCSharpFieldType (getBasefromSimpleType (trimNSpfx v.Base) tree) ++ " "
  else ""

/-- genCSharp.go `CSharpComplexType` (lines 155–220). -/
def CSharpComplexType (tree : ProtoTree) (v : ComplexType) (st : GenState) : GenState :=
  if (st.StructAST.lookup v.Name).isNone then
    let fc := genCSharpFieldName v.Name true st.fieldNameCount
    let className := fc.1
    let content := "\n\t\x7b\n"
      ++ String.join (v.AttributeGroup.map (csharpComplexAttrGroupField tree className))
      ++ String.join (v.Attributes.map (csharpComplexAttrField tree))
      ++ String.join (v.Groups.map (csharpComplexGroupField tree className))
      ++ String.join (v.Elements.map (csharpComplexElementField tree className))
      ++ csharpComplexBaseContent tree v
      ++ "\t\x7d\n"
    { fieldNameCount := fc.2, StructAST := (v.Name, content) :: st.StructAST,
      Field := st.Field ++ genFieldComment className v.Doc "\t//" ++ genCSharpClassAttributes v.Name
        ++ "\tpublic partial class " ++ className ++ csharpComplexInheritance tree v ++ content }
  else st

/-- genCSharp.go `CSharpGroup`, element loop body (lines 231–239). -/
def csharpGroupElementField (tree : ProtoTree) (element : Element) : String :=
  let fieldType := csharpElementFieldType tree element
  "\t\t" ++ genCSharpFieldAttributes element.Name true ++ " public " ++ fieldType ++ " "
    ++ genCSharpFieldNameBase element.Name ++ " \x7b get; set; \x7d"
    ++ getCSharpDefaultValue fieldType ++ "\n"

/-- genCSharp.go `CSharpGroup`, nested-group loop body (lines 242–248). -/
def csharpGroupGroupField (tree : ProtoTree) (group : Group) : String :=
  let fieldType := genCSharpFieldType (getBasefromSimpleType (trimNSpfx group.Ref) tree)
  let fieldType := if group.Plural then "List<" ++ fieldType ++ ">" else fieldType
  "\t\t" ++ genCSharpFieldAttributes group.Name true ++ " public " ++ fieldType ++ "? "
    ++ genCSharpFieldNameBase group.Name ++ " \x7b get; set; \x7d\n"

/-- genCSharp.go `CSharpGroup` (lines 228–255). -/
def CSharpGroup (tree : ProtoTree) (v : Group) (st : GenState) : GenState :=
  if (st.StructAST.lookup v.Name).isNone then
    let content := "\n\t\x7b\n"
      ++ String.join (v.Elements.map (csharpGroupElementField tree))
      ++ String.join (v.Groups.map (csharpGroupGroupField tree))
      ++ "\t\x7d\n"
    let ast := (v.Name, content) :: st.StructAST
    let fc := genCSharpFieldName v.Name true st.fieldNameCount
    { fieldNameCount := fc.2, StructAST := ast,
      Field := st.Field ++ genFieldComment fc.1 v.Doc "\t//" ++ genCSharpClassAttributes v.Name
        ++ "\tpublic partial class " ++ fc.1 ++ content }
  else st

/-- genCSharp.go `CSharpAttributeGroup`, attribute loop body (lines 263–270):
the field identifier is the normalized attribute name with "Attr" appended;
no comparison with the class name is made. -/
def csharpAttrGroupAttrField (tree : ProtoTree) (attr : Attribute) : String :=
  let fieldType := csharpAttrFieldType tree attr
  "\t\t" ++ genCSharpFieldAttributes attr.Name false ++ " public " ++ fieldType ++ " "
    ++ genCSharpFieldNameBase attr.Name ++ "Attr \x7b get; set; \x7d"
    ++ getCSharpDefaultValue fieldType ++ "\n"

/-- genCSharp.go `CSharpAttributeGroup` (lines 259–275). -/
def CSharpAttributeGroup (tree : ProtoTree) (v : AttributeGroup) (st : GenState) : GenState :=
  if (st.StructAST.lookup v.Name).isNone then
    let fc := genCSharpFieldName v.Name true st.fieldNameCount
    let content := "\n\t\x7b\n"
      ++ String.join (v.Attributes.map (csharpAttrGroupAttrField tree))
      ++ "\t\x7d\n"
    { fieldNameCount := fc.2, StructAST := (v.Name, content) :: st.StructAST,
      Field := st.Field ++ genFieldComment fc.1 v.Doc "\t//" ++ genCSharpClassAttributes v.Name
        ++ "\tpublic partial class " ++ fc.1 ++ content }
  else st

/-- genCSharp.go `CSharpElement` (lines 278–291): only emits when the resolved
type is not a C# built-in. -/
def CSharpElement (tree : ProtoTree) (v : Element) (st : GenState) : GenState :=
  if (st.StructAST.lookup v.Name).isNone then
    let fieldType := genCSharpFieldType (getBasefromSimpleType (trimNSpfx v.Type') tree)
    if !isBuiltInCSharpType fieldType then
      let fieldType := if v.Plural then "List<" ++ fieldType ++ ">" else fieldType
      let content := " : " ++ fieldType ++ " \x7b\x7d;\n"
      let ast := (v.Name, content) :: st.StructAST
      let fc := genCSharpFieldName v.Name true st.fieldNameCount
      { fieldNameCount := fc.2, StructAST := ast,
        Field := st.Field ++ genFieldComment fc.1 v.Doc "\t//" ++ genCSharpClassAttributes v.Name
          ++ "\tpublic partial class " ++ fc.1 ++ content }
    else st
  else st

/-- genCSharp.go `CSharpAttribute` (lines 294–307). -/
def CSharpAttribute (tree : ProtoTree) (v : Attribute) (st : GenState) : GenState :=
  if (st.StructAST.lookup v.Name).isNone then
    let fieldType := genCSharpFieldType (getBasefromSimpleType (trimNSpfx v.Type') tree)
    if !isBuiltInCSharpType fieldType then
      let fieldType := if v.Plural then "List<" ++ fieldType ++ ">" else fieldType
      let content := " : " ++ fieldType ++ " \x7b\x7d;\n"
      let ast := (v.Name, content) :: st.StructAST
      let fc := genCSharpFieldName v.Name true st.fieldNameCount
      { fieldNameCount := fc.2, StructAST := ast,
        Field := st.Field ++ genFieldComment fc.1 v.Doc "\t//" ++ genCSharpClassAttributes v.Name
          ++ "\tpublic partial class " ++ fc.1 ++ content }
    else st
  else st

/-- The dispatch of genCSharp.go `GenCSharp` lines 50–56: the Go resolves the
handler by reflected type name ("CSharp" + variant name); on the closed
variant set this is a match, with `nil` entries skipped. -/
def dispatchCSharp (tree : ProtoTree) (st : GenState) (item : Option ProtoItem) : GenState :=
  match item with
  | none => st
  | some (.simpleType v) => CSharpSimpleType tree v st
  | some (.complexType v) => CSharpComplexType tree v st
  | some (.element v) => CSharpElement tree v st
  | some (.attribute v) => CSharpAttribute tree v st
  | some (.group v) => CSharpGroup tree v st
  | some (.attributeGroup v) => CSharpAttributeGroup tree v st

/-- genCSharp.go line 66: the fixed `using` preamble. -/
def usingDecl : String :=
  "using System.CodeDom.Compiler;\nusing System.Xml.Serialization;\n"

/-- The outcome of the destination I/O performed by `GenCSharp`
(`os.Create` then a single `f.Write`): creation fails, the write fails, or
both succeed. -/
inductive IoOutcome where
  | ok : IoOutcome
  | createFail : IoOutcome
  | writeFail : IoOutcome
deriving DecidableEq

/-- What `GenCSharp` produces: the returned Go `error` (as a Bool) and the
content handed to the single `f.Write` call (`none` when no write happened). -/
structure GenOutput where
  error : Bool
  written : Option String
deriving DecidableEq

/-- The full source unit assembled in memory by genCSharp.go `GenCSharp`
(lines 49–70) before any destination I/O: reset `fieldNameCount`, walk the
tree dispatching every non-nil construct, then wrap `gen.Field` in the
banner, the `using` preamble and the namespace (default "schema"). -/
def csharpSourceUnit (tree : ProtoTree) (pkg : String) : String :=
  let st0 : GenState := { fieldNameCount := fun _ => 0, StructAST := [], Field := "" }
  let stFinal := tree.foldl (dispatchCSharp tree) st0
  let ns := if pkg = "" then "schema" else pkg
  copyright ++ "\n\n" ++ usingDecl ++ "\nnamespace " ++ ns ++ "\n\x7b" ++ stFinal.Field ++ "\x7d\n"

/-- genCSharp.go `GenCSharp` (lines 48–72).  `fieldNameCount0` is the
package-global counter as left by any previous run; line 49
(`fieldNameCount = make(map[string]int)`) discards it, which the model makes
explicit by never using it.  `gen.StructAST` and `gen.Field` start empty for
an independent run (a fresh `CodeGenerator`).  On `createFail` the function
returns the `os.Create` error before anything is written; otherwise the
assembled unit is written once and the function returns the `os.Create`
error, which is nil — the return value of `f.Write` (hence `writeFail`) is
discarded by the Go code. -/
def GenCSharp (tree : ProtoTree) (pkg : String) (fieldNameCount0 : String → Nat)
    (io : IoOutcome) : GenOutput :=
  let _ := fieldNameCount0
  match io with
  | .createFail => { error := true, written := none }
  | _ => { error := false, written := some (csharpSourceUnit tree pkg) }

/-- The construct name of a tree entry (`nil` entries have none); used to
state that a reference matches no construct name in the Schema Tree. -/
def itemName : Option ProtoItem → Option String
  | none => none
  | some (.simpleType v) => some v.Name
  | some (.complexType v) => some v.Name
  | some (.element v) => some v.Name
  | some (.attribute v) => some v.Name
  | some (.group v) => some v.Name
  | some (.attributeGroup v) => some v.Name

/-- `charListLess` is irreflexive. -/
theorem charListLess_irrefl (x : List Char) : charListLess x x = false := by
  induction x with
  | nil => rfl
  | cons a as ih => simp [charListLess, lt_irrefl, ih]

/-- `charListLess` never holds in both directions. -/
theorem charListLess_asymm : ∀ {x y : List Char},
    charListLess x y = true → charListLess y x = false
  | [], [], h => by simp [charListLess] at h
  | [], _ :: _, _ => rfl
  | _ :: _, [], h => by simp [charListLess] at h
  | a :: as, b :: bs, h => by
    rcases lt_trichotomy a b with hab | hab | hab
    · simp [charListLess, hab, not_lt_of_gt hab, lt_asymm hab]
    · subst hab
      simp only [charListLess, lt_irrefl, if_false] at h ⊢
      exact charListLess_asymm h
    · simp [charListLess, hab, not_lt_of_gt hab, lt_asymm hab] at h

/-- If neither list is strictly below the other, they are equal. -/
theorem charListLess_conn : ∀ {x y : List Char},
    charListLess x y = false → charListLess y x = false → x = y
  | [], [], _, _ => rfl
  | [], _ :: _, h, _ => by simp [charListLess] at h
  | _ :: _, [], _, h => by simp [charListLess] at h
  | a :: as, b :: bs, h1, h2 => by
    rcases lt_trichotomy a b with hab | hab | hab
    · simp [charListLess, hab] at h1
    · subst hab
      simp only [charListLess, lt_irrefl, if_false] at h1 h2
      rw [charListLess_conn h1 h2]
    · simp [charListLess, hab] at h2

/-- `charListLess` is transitive. -/
theorem charListLess_trans : ∀ {x y z : List Char},
    charListLess x y = true → charListLess y z = true → charListLess x z = true
  | [], [], _, h1, _ => by simp [charListLess] at h1
  | [], _ :: _, [], _, h2 => by simp [charListLess] at h2
  | [], _ :: _, _ :: _, _, _ => rfl
  | _ :: _, [], _, h1, _ => by simp [charListLess] at h1
  | _ :: _, _ :: _, [], _, h2 => by simp [charListLess] at h2
  | a :: as, b :: bs, c :: cs, h1, h2 => by
    rcases lt_trichotomy a b with hab | hab | hab
    · rcases lt_trichotomy b c with hbc | hbc | hbc
      · simp [charListLess, lt_trans hab hbc]
      · subst hbc; simp [charListLess, hab]
      · rcases lt_trichotomy a c with hac | hac | hac
        · simp [charListLess, hac]
        · subst hac
          simp [charListLess, hbc, not_lt_of_gt hbc, lt_asymm hbc] at h2
        · simp [charListLess, hbc, not_lt_of_gt hbc, lt_asymm hbc] at h2
    · subst hab
      simp only [charListLess, lt_irrefl, if_false] at h1
      rcases lt_trichotomy a c with hac | hac | hac
      · simp [charListLess, hac]
      · subst hac
        simp only [charListLess, lt_irrefl, if_false] at h2 ⊢
        exact charListLess_trans h1 h2
      · simp [charListLess, hac, not_lt_of_gt hac, lt_asymm hac] at h2
    · simp [charListLess, hab, not_lt_of_gt hab, lt_asymm hab] at h1

/-- `kvLess` unfolded to a proposition. -/
theorem kvLess_true_iff (a b : String × String) :
    kvLess a b = true ↔
      charListLess a.2.data b.2.data = true
      ∨ (a.2 = b.2 ∧ charListLess b.1.data a.1.data = true) := by
  simp [kvLess]

/-- `kvLess` refuted, as a proposition. -/
theorem kvLess_false_iff (a b : String × String) :
    kvLess a b = false ↔
      charListLess a.2.data b.2.data = false
      ∧ (a.2 = b.2 → charListLess b.1.data a.1.data = false) := by
  rw [← Bool.not_eq_true, kvLess_true_iff]
  constructor
  · intro h
    refine ⟨?_, ?_⟩
    · cases hc : charListLess a.2.data b.2.data with
      | false => rfl
      | true => exact absurd (Or.inl hc) h
    · intro hv
      cases hc : charListLess b.1.data a.1.data with
      | false => rfl
      | true => exact absurd (Or.inr ⟨hv, hc⟩) h
  · rintro ⟨h1, h2⟩ (hc | ⟨hv, hc⟩)
    · rw [h1] at hc; exact Bool.false_ne_true hc
    · rw [h2 hv] at hc; exact Bool.false_ne_true hc

/-- The `sort.Sort` comparator complement `kvLe` is total. -/
instance : IsTotal (String × String) kvLe where
  total a b := by
    unfold kvLe
    rw [Bool.not_eq_true', Bool.not_eq_true']
    by_cases hab : kvLess b a = false
    · exact Or.inl hab
    · right
      rw [Bool.not_eq_false] at hab
      rcases (kvLess_true_iff b a).mp hab with hc | ⟨hv, hc⟩
      · exact (kvLess_false_iff a b).mpr
          ⟨charListLess_asymm hc, fun hv => by rw [hv] at hc; simp [charListLess_irrefl] at hc⟩
      · exact (kvLess_false_iff a b).mpr
          ⟨by rw [hv]; exact charListLess_irrefl _, fun _ => charListLess_asymm hc⟩

/-- Not-strictly-below is transitive for `charListLess`. -/
theorem charListLess_notlt_trans {x y z : List Char}
    (h1 : charListLess x y = false) (h2 : charListLess y z = false) :
    charListLess x z = false := by
  cases hc : charListLess x z with
  | false => rfl
  | true =>
    exfalso
    rcases Bool.eq_false_or_eq_true (charListLess y x) with hyx | hyx
    · have := charListLess_trans hyx hc
      rw [h2] at this
      exact Bool.false_ne_true this
    · have hxy := charListLess_conn h1 hyx
      rw [hxy] at hc
      rw [hc] at h2
      exact Bool.false_ne_true h2.symm

/-- The `sort.Sort` comparator complement `kvLe` is transitive. -/
instance : IsTrans (String × String) kvLe where
  trans a b c hab hbc := by
    unfold kvLe at hab hbc ⊢
    rw [Bool.not_eq_true'] at hab hbc ⊢
    rcases (kvLess_false_iff b a).mp hab with ⟨hv1, hk1⟩
    rcases (kvLess_false_iff c b).mp hbc with ⟨hv2, hk2⟩
    refine (kvLess_false_iff c a).mpr ⟨charListLess_notlt_trans hv2 hv1, ?_⟩
    intro hv
    have hv2' : charListLess a.2.data b.2.data = false := by rw [← hv]; exact hv2
    have hba : b.2 = a.2 := congrArg String.mk (charListLess_conn hv2' hv1).symm
    exact charListLess_notlt_trans (hk1 hba) (hk2 (hv.trans hba.symm))

/-- The `sort.Sort` comparator complement `kvLe` is antisymmetric, so the
sorted permutation produced by `toSortedPairs` is unique. -/
instance : IsAntisymm (String × String) kvLe where
  antisymm a b hab hba := by
    unfold kvLe at hab hba
    rw [Bool.not_eq_true'] at hab hba
    rcases (kvLess_false_iff b a).mp hab with ⟨hv1, hk1⟩
    rcases (kvLess_false_iff a b).mp hba with ⟨hv2, hk2⟩
    have hv : a.2 = b.2 := congrArg String.mk (charListLess_conn hv2 hv1)
    have hk : a.1 = b.1 :=
      congrArg String.mk (charListLess_conn (hk1 hv.symm) (hk2 hv))
    exact Prod.ext hk hv

/-- `toSortedPairs` permutes its input (models that `sort.Sort` reorders the
collected map entries in place). -/
theorem toSortedPairs_perm (l : List (String × String)) : (toSortedPairs l).Perm l :=
  List.perm_insertionSort kvLe l

/-- `toSortedPairs` output is sorted for the comparator. -/
theorem toSortedPairs_sorted (l : List (String × String)) :
    List.Sorted kvLe (toSortedPairs l) :=
  List.sorted_insertionSort kvLe l

/-- Two permutations of the same member map sort identically: the sorted
permutation is unique because `kvLe` is a decidable linear order. -/
theorem toSortedPairs_eq_of_perm {l l' : List (String × String)} (h : l.Perm l') :
    toSortedPairs l = toSortedPairs l' :=
  List.eq_of_perm_of_sorted
    ((toSortedPairs_perm l).trans (h.trans (toSortedPairs_perm l').symm))
    (toSortedPairs_sorted l) (toSortedPairs_sorted l')

/-- The member's resolved type name in the sense of the specification: the
mapped type, looked up by member name when empty, then normalized. -/
def claimResolvedType (tree : ProtoTree) (m : String × String) : String :=
  genCSharpFieldType (if m.2 = "" then getBasefromSimpleType m.1 tree else m.2)

/-- The comparator stated by the specification for union member fields
(primary key: resolved type name ascending; tie-break: member name
descending).  This follows the spec wording, not the source, and exists only
to be compared with `toSortedPairs`. -/
def claimLess (tree : ProtoTree) (a b : String × String) : Bool :=
  charListLess (claimResolvedType tree a).data (claimResolvedType tree b).data
  || (claimResolvedType tree a == claimResolvedType tree b && charListLess b.1.data a.1.data)

/-- The union member order stated by the specification (see `claimLess`). -/
def claimMemberOrder (tree : ProtoTree) (l : List (String × String)) :
    List (String × String) :=
  List.insertionSort (fun a b => (!claimLess tree b a) = true) l

/-- An empty generator state: fresh `fieldNameCount`, empty Declaration
Cache, empty output buffer — the state at the start of a generation run. -/
def exSt0 : GenState := { fieldNameCount := fun _ => 0, StructAST := [], Field := "" }

/-- A plural and optional element of built-in scalar type. -/
def exC1elem : Element := { Name := "tags", Doc := "", Type' := "string", Plural := true, Optional := true }

/-- A non-plural optional element of built-in scalar type. -/
def exC1elemOpt : Element := { Name := "note", Doc := "", Type' := "string", Plural := false, Optional := true }

/-- A ComplexType holding only the plural+optional element `exC1elem`. -/
def exC1ct : ComplexType := { Name := "Doc1", Doc := "", Base := "", Attributes := [], AttributeGroup := [], Elements := [exC1elem], Groups := [] }

/-- A non-list non-union SimpleType whose base resolves to the C# built-in
`int`. -/
def exC2st : SimpleType := { Name := "size", Doc := "", Base := "int", Union := false, MemberTypes := [], List := false }

/-- A tree declaring the SimpleType `x` with base `z` (so the union member
`x`, whose mapped type is empty, resolves to `z`). -/
def exC3tree : ProtoTree := [some (.simpleType { Name := "x", Doc := "", Base := "z", Union := false, MemberTypes := [], List := false })]

/-- A union SimpleType with members `x` (empty mapped type, resolving to `z`)
and `y` (mapped type `a`). -/
def exC3v : SimpleType := { Name := "Color", Doc := "", Base := "", Union := true, MemberTypes := [("x", ""), ("y", "a")], List := false }

/-- Three SimpleTypes whose raw names `foo`, `foo2`, `Foo` make the second
and third top-level identifiers collide after suffixing. -/
def exC4tree : ProtoTree :=
  [some (.simpleType { Name := "foo", Doc := "", Base := "x", Union := false, MemberTypes := [], List := false }),
   some (.simpleType { Name := "foo2", Doc := "", Base := "x", Union := false, MemberTypes := [], List := false }),
   some (.simpleType { Name := "Foo", Doc := "", Base := "x", Union := false, MemberTypes := [], List := false })]

/-- A tree declaring the non-list non-union SimpleType `T` with base `U`. -/
def exC5tree : ProtoTree := [some (.simpleType { Name := "T", Doc := "", Base := "U", Union := false, MemberTypes := [], List := false })]

/-- A ComplexType whose base is the (non-built-in) construct `T`. -/
def exC5ct : ComplexType := { Name := "C", Doc := "", Base := "T", Attributes := [], AttributeGroup := [], Elements := [], Groups := [] }

/-- A ComplexType whose base is the C# built-in `string`. -/
def exC5builtin : ComplexType := { Name := "S", Doc := "", Base := "string", Attributes := [], AttributeGroup := [], Elements := [], Groups := [] }

/-- A tree with one ComplexType named `Person` and one `nil` entry. -/
def exC8tree : ProtoTree := [some (.complexType { Name := "Person", Doc := "", Base := "", Attributes := [], AttributeGroup := [], Elements := [], Groups := [] }), none]

/-- A required attribute whose normalized name is `Person`. -/
def exC10attr : Attribute := { Name := "person", Doc := "", Type' := "string", Plural := false, Optional := false }

/-- C1, counterexample: for the plural+optional element `tags : string`, the
code renders `List<string>?` — the nullable wrapper is applied on top of the
collection form — while the claim states the collection form is rendered
without a nullable wrapper.  The second conjunct shows the rendered class
body of a ComplexType holding that element. -/
theorem C1_counterexample :
    csharpElementFieldType [] exC1elem = "List<string>?"
    ∧ (CSharpComplexType [] exC1ct exSt0).StructAST.lookup "Doc1"
        = some "\n\t\x7b\n\t\t[XmlElement(\"tags\")] public List<string>? Tags \x7b get; set; \x7d\n\t\x7d\n"
    ∧ ("List<string>?" : String) ≠ "List<string>" :=
  ⟨by decide, by decide, by decide⟩

/-- C1, amended: a plural element renders as the collection form, and when
its optional flag is also set the nullable wrapper is additionally applied
(collections do NOT absorb optionality: the result is `List<T>` followed by
`?`); a non-plural optional element renders as the nullable scalar.  Used by
both the ComplexType and the Group element loops (`csharpElementFieldType`). -/
theorem C1_amended (e eOpt : Element) (tree : ProtoTree)
    (h1 : e.Plural = true) (h2 : e.Optional = true)
    (h3 : eOpt.Plural = false) (h4 : eOpt.Optional = true) :
    csharpElementFieldType tree e =
      "List<" ++ genCSharpFieldType (getBasefromSimpleType (trimNSpfx e.Type') tree) ++ ">" ++ "?"
    ∧ csharpElementFieldType tree eOpt =
      genCSharpFieldType (getBasefromSimpleType (trimNSpfx eOpt.Type') tree) ++ "?" := by
  unfold csharpElementFieldType
  rw [h1, h2, h3, h4]
  exact ⟨rfl, rfl⟩

/-- C1, witness for the amended theorem at `tags`/`note`. -/
theorem C1_amended_witness :
    exC1elem.Plural = true ∧ exC1elem.Optional = true
    ∧ exC1elemOpt.Plural = false ∧ exC1elemOpt.Optional = true
    ∧ csharpElementFieldType [] exC1elem =
        "List<" ++ genCSharpFieldType (getBasefromSimpleType (trimNSpfx exC1elem.Type') []) ++ ">" ++ "?"
    ∧ csharpElementFieldType [] exC1elemOpt =
        genCSharpFieldType (getBasefromSimpleType (trimNSpfx exC1elemOpt.Type') []) ++ "?" :=
  ⟨rfl, rfl, rfl, rfl, (C1_amended exC1elem exC1elemOpt [] rfl rfl rfl rfl).1,
   (C1_amended exC1elem exC1elemOpt [] rfl rfl rfl rfl).2⟩

/-- C2, counterexample: for the non-list non-union SimpleType `size` with
built-in resolved base `int`, the handler emits no declaration text (first
conjunct, as the claim states) but does NOT register `size` in the
Declaration Cache (second conjunct) — the claim states the name is present
as a key after the handler returns. -/
theorem C2_counterexample :
    (CSharpSimpleType [] exC2st exSt0).Field = ""
    ∧ (CSharpSimpleType [] exC2st exSt0).StructAST.lookup "size" = none :=
  ⟨by decide, by decide⟩

/-- C2, amended: for a non-list non-union SimpleType whose resolved base is a
C# built-in type, the handler leaves the whole generator state unchanged: no
declaration text, no Declaration Cache entry, no counter change.
Re-processing the construct is a no-op only because this same built-in check
short-circuits again, not because of the cache. -/
theorem C2_amended (tree : ProtoTree) (v : SimpleType) (st : GenState)
    (hl : v.List = false) (hu : v.Union = false)
    (hb : isBuiltInCSharpType (genCSharpFieldType (getBasefromSimpleType (trimNSpfx v.Base) tree)) = true) :
    CSharpSimpleType tree v st = st := by
  unfold CSharpSimpleType
  rw [hl, hu]
  simp [hb]

/-- C2, witness for the amended theorem at the `size` SimpleType. -/
theorem C2_amended_witness :
    exC2st.List = false ∧ exC2st.Union = false
    ∧ isBuiltInCSharpType (genCSharpFieldType (getBasefromSimpleType (trimNSpfx exC2st.Base) [])) = true
    ∧ CSharpSimpleType [] exC2st exSt0 = exSt0 :=
  ⟨rfl, rfl, by decide, C2_amended [] exC2st exSt0 rfl rfl (by decide)⟩

/-- C3, counterexample: the code sorts the member pairs by the RAW mapped
type string before resolution (`""` for `x` sorts before `"a"` for `y`), so
the rendered record lists `X` (resolved type `Z`) before `Y` (resolved type
`A`); the order stated by the claim (resolved type name ascending:
`A` before `Z`) puts `y` first.  The two orders differ on this input. -/
theorem C3_counterexample :
    toSortedPairs [("x", ""), ("y", "a")] = [("x", ""), ("y", "a")]
    ∧ claimMemberOrder exC3tree [("x", ""), ("y", "a")] = [("y", "a"), ("x", "")]
    ∧ (CSharpSimpleType exC3tree exC3v exSt0).StructAST.lookup "Color"
        = some "\n\t\x7b\n\t\t\t[XmlElement(\"x\")] public Z? X \x7b get; set; \x7d\n\t\t\t[XmlElement(\"y\")] public A? Y \x7b get; set; \x7d\n\t\x7d\n"
    ∧ ([("x", ""), ("y", "a")] : List (String × String)) ≠ [("y", "a"), ("x", "")] :=
  ⟨by decide, by decide, by decide, by decide⟩

/-- C3, amended: the union handler result is independent of the member
mapping's iteration order (any permutation of the member list yields the same
generator state), and the rendered fields appear sorted by `kvLe`: raw mapped
type string ascending (the empty string of by-name members sorting first),
tie-break member name descending. -/
theorem C3_amended (v : SimpleType) (tree : ProtoTree) (st : GenState)
    (l' : List (String × String)) (hperm : v.MemberTypes.Perm l') :
    CSharpSimpleType tree v st = CSharpSimpleType tree { v with MemberTypes := l' } st
    ∧ List.Sorted kvLe (toSortedPairs v.MemberTypes)
    ∧ (toSortedPairs v.MemberTypes).Perm v.MemberTypes := by
  refine ⟨?_, toSortedPairs_sorted _, toSortedPairs_perm _⟩
  obtain ⟨n, d, b, u, m, li⟩ := v
  have hlen := hperm.length_eq
  simp only [CSharpSimpleType]
  rw [toSortedPairs_eq_of_perm hperm, hlen]

/-- C3, witness for the amended theorem: the `Color` union handler yields the
same state on the reversed member list. -/
theorem C3_amended_witness :
    exC3v.MemberTypes.Perm [("y", "a"), ("x", "")]
    ∧ CSharpSimpleType exC3tree exC3v exSt0
        = CSharpSimpleType exC3tree { exC3v with MemberTypes := [("y", "a"), ("x", "")] } exSt0 :=
  ⟨List.Perm.swap ("y", "a") ("x", "") [],
   (C3_amended exC3v exC3tree exSt0 [("y", "a"), ("x", "")]
     (List.Perm.swap ("y", "a") ("x", "") [])).1⟩

set_option maxRecDepth 40000 in
/-- C4, counterexample: in one run, the raw names `foo`, `foo2`, `Foo`
produce the identifiers `Foo`, `Foo2`, `Foo2` — the suffixed variant of the
second `Foo` collides with the directly-normalized `foo2`, so the top-level
identifiers of one output unit are NOT pairwise distinct (the claim's
universal distinctness fails).  The last conjunct shows the assembled source
unit containing `public partial class Foo2` twice. -/
theorem C4_counterexample :
    (genCSharpFieldName "foo" true (fun _ => 0)).1 = "Foo"
    ∧ (genCSharpFieldName "foo2" true ((genCSharpFieldName "foo" true (fun _ => 0)).2)).1 = "Foo2"
    ∧ (genCSharpFieldName "Foo" true
        ((genCSharpFieldName "foo2" true ((genCSharpFieldName "foo" true (fun _ => 0)).2)).2)).1 = "Foo2"
    ∧ ("foo2" : String) ≠ "Foo"
    ∧ csharpSourceUnit exC4tree ""
        = "// Code generated by xgen. DO NOT EDIT.\n\nusing System.CodeDom.Compiler;\nusing System.Xml.Serialization;\n\nnamespace schema\n\x7b\n\t// Foo ...\n\t[GeneratedCode(\"xgen\", null)]\n\t[XmlType(\"foo\")]\n\tpublic partial class Foo : X \x7b\x7d;\n\n\t// Foo2 ...\n\t[GeneratedCode(\"xgen\", null)]\n\t[XmlType(\"foo2\")]\n\tpublic partial class Foo2 : X \x7b\x7d;\n\n\t// Foo2 ...\n\t[GeneratedCode(\"xgen\", null)]\n\t[XmlType(\"Foo\")]\n\tpublic partial class Foo2 : X \x7b\x7d;\n\x7d\n" :=
  ⟨by decide, by decide, by decide, by decide, by decide⟩

/-- C4, amended: raw names normalizing to the same identifier receive the
suffixed variants in first-seen order — the occurrence with prior count 0 is
returned unmodified, the occurrence with prior count n ≥ 1 is suffixed with
n+1 (its occurrence number), and the counter for the normalized identifier
is incremented.  This does NOT make all top-level identifiers pairwise
distinct, since a suffixed variant can coincide with a different raw name's
normalized identifier (see the counterexample). -/
theorem C4_amended (name : String) (c : String → Nat) (n : Nat)
    (h : c (genCSharpFieldNameBase name) = n) :
    (n = 0 → (genCSharpFieldName name true c).1 = genCSharpFieldNameBase name)
    ∧ (0 < n → (genCSharpFieldName name true c).1
        = genCSharpFieldNameBase name ++ toString (n + 1))
    ∧ (genCSharpFieldName name true c).2 (genCSharpFieldNameBase name) = n + 1 := by
  refine ⟨?_, ?_, ?_⟩
  · intro hn
    subst hn
    simp [genCSharpFieldName, h]
  · intro hn
    have hne : n + 1 ≠ 1 := by omega
    simp [genCSharpFieldName, h, hne]
  · by_cases hn : n = 0
    · subst hn
      simp [genCSharpFieldName, h]
    · have hne : n + 1 ≠ 1 := by omega
      simp [genCSharpFieldName, h, hne]

/-- C4, witness for the amended theorem: a fresh counter returns `Foo`
unmodified; a counter already at 1 returns `Foo2` and bumps to 2. -/
theorem C4_amended_witness :
    ((fun _ => 0 : String → Nat) (genCSharpFieldNameBase "foo") = 0)
    ∧ (genCSharpFieldName "foo" true (fun _ => 0)).1 = genCSharpFieldNameBase "foo"
    ∧ ((fun _ => 1 : String → Nat) (genCSharpFieldNameBase "Foo") = 1)
    ∧ (genCSharpFieldName "Foo" true (fun _ => 1)).1
        = genCSharpFieldNameBase "Foo" ++ toString 2
    ∧ (genCSharpFieldName "Foo" true (fun _ => 1)).2 (genCSharpFieldNameBase "Foo") = 2 :=
  ⟨rfl, (C4_amended "foo" (fun _ => 0) 0 rfl).1 rfl, rfl,
   (C4_amended "Foo" (fun _ => 1) 1 rfl).2.1 (by decide),
   (C4_amended "Foo" (fun _ => 1) 1 rfl).2.2⟩

/-- C5, counterexample: ComplexType `C` declares base `T`, a non-built-in
construct of the tree (a SimpleType aliasing `U`); the claim states the
inheritance clause names the base's normalized identifier (` : T `), but the
code resolves the base one level through the tree and emits ` : U `. -/
theorem C5_counterexample :
    csharpComplexInheritance exC5tree exC5ct = " : U "
    ∧ (CSharpComplexType exC5tree exC5ct exSt0).Field
        = "\n\t// C ...\n\t[GeneratedCode(\"xgen\", null)]\n\t[XmlType(\"C\")]\n\tpublic partial class C : U \n\t\x7b\n\t\x7d\n"
    ∧ (" : U " : String) ≠ " : T " :=
  ⟨by decide, by decide, by decide⟩

/-- C5, amended: for a ComplexType with non-empty base, the branch is decided
by testing the RAW base string against the C# built-in set: if it is a
built-in name, a single text-content field is appended and no inheritance
clause is emitted; otherwise no text-content field is emitted and the
inheritance clause names the normalized one-level resolution of the base
through the tree (which is the base's own identifier only when the base is
not a non-list/non-union SimpleType, Attribute or Element of the tree). -/
theorem C5_amended (tree : ProtoTree) (v : ComplexType) (h : 0 < v.Base.length) :
    (isBuiltInCSharpType v.Base = true →
      csharpComplexInheritance tree v = ""
      ∧ csharpComplexBaseContent tree v
          = "\t\t[XmlText(typeof(" ++ genCSharpFieldType (getBasefromSimpleType (trimNSpfx v.Base) tree)
            ++ "))] public " ++ genCSharpFieldType (getBasefromSimpleType (trimNSpfx v.Base) tree)
            ++ "? Value \x7b get; set; \x7d\n")
    ∧ (isBuiltInCSharpType v.Base = false →
      csharpComplexBaseContent tree v = ""
      ∧ csharpComplexInheritance tree v
          = " : " ++ genCSharpFieldType (getBasefromSimpleType (trimNSpfx v.Base) tree) ++ " ") := by
  have hd : decide (0 < v.Base.length) = true := decide_eq_true h
  constructor <;> intro hb
  · exact ⟨by simp [csharpComplexInheritance, hd, hb],
      by simp [csharpComplexBaseContent, hd, hb]⟩
  · exact ⟨by simp [csharpComplexBaseContent, hd, hb],
      by simp [csharpComplexInheritance, hd, hb]⟩

/-- C5, witness for the amended theorem at the built-in-base ComplexType `S`. -/
theorem C5_amended_witness :
    0 < exC5builtin.Base.length
    ∧ isBuiltInCSharpType exC5builtin.Base = true
    ∧ csharpComplexInheritance [] exC5builtin = ""
    ∧ csharpComplexBaseContent [] exC5builtin
        = "\t\t[XmlText(typeof(" ++ genCSharpFieldType (getBasefromSimpleType (trimNSpfx exC5builtin.Base) [])
          ++ "))] public " ++ genCSharpFieldType (getBasefromSimpleType (trimNSpfx exC5builtin.Base) [])
          ++ "? Value \x7b get; set; \x7d\n" :=
  ⟨by decide, by decide, ((C5_amended [] exC5builtin (by decide)).1 (by decide)).1,
   ((C5_amended [] exC5builtin (by decide)).1 (by decide)).2⟩

/-- C6, counterexample: when the single write of the destination file fails
(`f.Write`'s error), `GenCSharp` still returns no error — the Go code
discards `f.Write`'s return values and returns the (nil) `os.Create` error —
so generation does NOT fail exactly when destination I/O fails, contrary to
the claim. -/
theorem C6_counterexample :
    (GenCSharp [] "" (fun _ => 0) IoOutcome.writeFail).error = false
    ∧ IoOutcome.writeFail ≠ IoOutcome.ok :=
  ⟨rfl, by decide⟩

/-- C6, amended: the destination is written once, after the full output unit
is assembled in memory; `GenCSharp` returns a terminal failure exactly when
CREATING the destination file fails, in which case nothing is written; when
creation succeeds the single write receives the fully assembled unit, and a
failure of the write itself is not propagated. -/
theorem C6_amended (tree : ProtoTree) (pkg : String) (c : String → Nat) (io : IoOutcome) :
    ((GenCSharp tree pkg c io).error = true ↔ io = IoOutcome.createFail)
    ∧ ((GenCSharp tree pkg c io).written = none ↔ io = IoOutcome.createFail)
    ∧ (io ≠ IoOutcome.createFail →
        (GenCSharp tree pkg c io).written = some (csharpSourceUnit tree pkg)) := by
  cases io <;> simp [GenCSharp]

/-- C6, witness for the amended theorem: a failing write still yields the
fully assembled unit handed to the write, and no error. -/
theorem C6_amended_witness :
    IoOutcome.writeFail ≠ IoOutcome.createFail
    ∧ (GenCSharp [] "schema" (fun _ => 0) IoOutcome.writeFail).written
        = some (csharpSourceUnit [] "schema") :=
  ⟨by decide, (C6_amended [] "schema" (fun _ => 0) IoOutcome.writeFail).2.2 (by decide)⟩

/-- C7: in the ComplexType handler, an attribute-group, group or element
field whose normalized name equals the enclosing class's normalized name is
renamed by appending the fixed suffix "Value", and the resulting field name
never equals the class name (for any input). -/
theorem C7_thm (raw className : String) :
    (genCSharpFieldNameBase raw = className →
      disambiguateFieldName (genCSharpFieldNameBase raw) className = className ++ "Value")
    ∧ disambiguateFieldName (genCSharpFieldNameBase raw) className ≠ className := by
  constructor
  · intro h
    rw [disambiguateFieldName, h]
    simp
  · by_cases he : genCSharpFieldNameBase raw = className
    · have hb : (genCSharpFieldNameBase raw == className) = true := beq_iff_eq.mpr he
      rw [disambiguateFieldName, if_pos hb, he]
      intro heq
      have hlen := congrArg String.length heq
      rw [String.length_append] at hlen
      have h5 : ("Value" : String).length = 5 := rfl
      rw [h5] at hlen
      omega
    · have hb : (genCSharpFieldNameBase raw == className) = false := beq_eq_false_iff_ne.mpr he
      rw [disambiguateFieldName, if_neg (by simp [hb])]
      exact he

/-- C7, witness: the `Person`-named field inside class `Person` becomes
`PersonValue`. -/
theorem C7_witness :
    genCSharpFieldNameBase "Person" = "Person"
    ∧ disambiguateFieldName (genCSharpFieldNameBase "Person") "Person" = "Person" ++ "Value"
    ∧ disambiguateFieldName (genCSharpFieldNameBase "Person") "Person" ≠ "Person" :=
  ⟨by decide, (C7_thm "Person" "Person").1 (by decide), (C7_thm "Person" "Person").2⟩

/-- C8: base-type resolution is a total function, and a reference matching no
construct name in the Schema Tree resolves to itself, unchanged — never an
error.  (The resolver does not consult the built-in table at all, so the
claim's "matches no built-in name" hypothesis is not even needed.) -/
theorem C8_thm (name : String) (tree : ProtoTree)
    (h : ∀ item ∈ tree, itemName item ≠ some name) :
    getBasefromSimpleType name tree = name := by
  induction tree with
  | nil => rfl
  | cons hd tl ih =>
    have hhd := h hd (List.mem_cons_self hd tl)
    have htl : ∀ item ∈ tl, itemName item ≠ some name :=
      fun i hi => h i (List.mem_cons_of_mem hd hi)
    cases hd with
    | none => exact ih htl
    | some item =>
      rcases item with v | v | v | v | v | v
      · have hvn : (v.Name == name) = false := by
          rw [beq_eq_false_iff_ne]
          intro he
          exact hhd (by simp [itemName, he])
        simp [getBasefromSimpleType, hvn, ih htl]
      · exact ih htl
      · have hvn : (v.Name == name) = false := by
          rw [beq_eq_false_iff_ne]
          intro he
          exact hhd (by simp [itemName, he])
        simp [getBasefromSimpleType, hvn, ih htl]
      · have hvn : (v.Name == name) = false := by
          rw [beq_eq_false_iff_ne]
          intro he
          exact hhd (by simp [itemName, he])
        simp [getBasefromSimpleType, hvn, ih htl]
      · exact ih htl
      · exact ih htl

/-- C8, witness: `ghost` matches nothing in a tree holding `Person` and a
`nil` entry, and resolves to itself. -/
theorem C8_witness :
    (∀ item ∈ exC8tree, itemName item ≠ some "ghost")
    ∧ getBasefromSimpleType "ghost" exC8tree = "ghost" :=
  ⟨by decide, C8_thm "ghost" exC8tree (by decide)⟩

/-- C9: determinism across runs — `GenCSharp` resets the run-scoped
uniqueness counter at its start (genCSharp.go line 49), so whatever counter
state a previous run left behind, two runs on the same Schema Tree, target
profile and namespace produce identical results, byte-identical written
output included. -/
theorem C9_thm (tree : ProtoTree) (pkg : String) (c1 c2 : String → Nat) (io : IoOutcome) :
    GenCSharp tree pkg c1 io = GenCSharp tree pkg c2 io := rfl

/-- C10: the attribute loops of both the ComplexType and the AttributeGroup
handlers emit the normalized attribute name with the literal suffix "Attr"
appended, and perform no rename on collision with the enclosing class's
name: even under the hypothesis that the normalized attribute name equals
the class name, the emitted identifier is the class name followed by "Attr"
(no "Value" disambiguation, unlike attribute-group/group/element fields). -/
theorem C10_thm (tree : ProtoTree) (a : Attribute) (className : String)
    (hcollide : genCSharpFieldNameBase a.Name = className) :
    csharpComplexAttrField tree a
      = "\t" ++ genCSharpFieldAttributes a.Name false ++ " public " ++ csharpAttrFieldType tree a
        ++ " " ++ className ++ "Attr \x7b get; set; \x7d"
        ++ getCSharpDefaultValue (csharpAttrFieldType tree a) ++ "\n"
    ∧ csharpAttrGroupAttrField tree a
      = "\t\t" ++ genCSharpFieldAttributes a.Name false ++ " public " ++ csharpAttrFieldType tree a
        ++ " " ++ className ++ "Attr \x7b get; set; \x7d"
        ++ getCSharpDefaultValue (csharpAttrFieldType tree a) ++ "\n" := by
  subst hcollide
  exact ⟨rfl, rfl⟩

/-- C10, witness at the attribute `person` inside a class named `Person`. -/
theorem C10_witness :
    genCSharpFieldNameBase exC10attr.Name = "Person"
    ∧ csharpComplexAttrField [] exC10attr
      = "\t" ++ genCSharpFieldAttributes exC10attr.Name false ++ " public "
        ++ csharpAttrFieldType [] exC10attr ++ " " ++ "Person" ++ "Attr \x7b get; set; \x7d"
        ++ getCSharpDefaultValue (csharpAttrFieldType [] exC10attr) ++ "\n"
    ∧ csharpAttrGroupAttrField [] exC10attr
      = "\t\t" ++ genCSharpFieldAttributes exC10attr.Name false ++ " public "
        ++ csharpAttrFieldType [] exC10attr ++ " " ++ "Person" ++ "Attr \x7b get; set; \x7d"
        ++ getCSharpDefaultValue (csharpAttrFieldType [] exC10attr) ++ "\n" :=
  ⟨by decide, (C10_thm [] exC10attr "Person" (by decide)).1,
   (C10_thm [] exC10attr "Person" (by decide)).2⟩

end Xgen
